import Mathlib

/-
  Verification of the lane-runner engine in src/Game/movimentoPersonagem.js.

  The engine state is embedded shallowly: positions are rationals (the source
  uses JS numbers, and every position manipulated by the engine is a sum and
  product of the small literal constants below, so rational arithmetic is
  exact on every reachable value considered here), randomness is an explicit
  stream rng : Nat -> Rat read at an explicit cursor that is threaded through
  every drawing operation in the exact order the source calls Math.random(),
  and each mutation of the module-level JS state is a function on a GameState
  record.  Rendering, WebGL and DOM concerns are omitted: they read the
  engine state but never write it (updateHeadlights and the draw calls only
  set GPU uniforms).
-/

namespace CrossyGame

/-- Step size of a player move (const step = 1.0). -/
def stepSize : ℚ := 1

/-- Width of the terrain strip in tiles (const TERRAIN_WIDTH = 31). -/
def TERRAIN_WIDTH : ℕ := 31

/-- Half of the terrain width (Math.floor(TERRAIN_WIDTH / 2) = 15). -/
def halfWidth : ℤ := 15

/-- Lateral bound for the player (Math.floor(TERRAIN_WIDTH / 4) + 1 = 8). -/
def boundaryLimit : ℤ := 8

/-- Depth of one terrain row (const ROW_DEPTH = 1.0). -/
def ROW_DEPTH : ℚ := 1

/-- Rows kept ahead of the camera (const DRAW_DISTANCE = 40). -/
def DRAW_DISTANCE : ℚ := 40

/-- Spawn x of the player (const initialX = -5). -/
def initialX : ℚ := -5

/-- Autoscroll speed (const scrollSpeed = 0.2). -/
def scrollSpeed : ℚ := 1/5

/-- Terrain row kind: grass or road. -/
inductive RowType
  | grass
  | road
deriving DecidableEq

/-- One terrain row as built by createRow.  direction and speed are null for
grass rows in the source, hence Option here.  The per-row cars array of the
source is always left empty (cars are pushed to the global array), so it is
omitted. -/
structure Row where
  x : ℚ
  type : RowType
  modelIndex : ℕ
  direction : Option ℤ
  speed : Option ℚ
deriving DecidableEq

/-- One tree as pushed by spawnTreesOnRow (y and scale are constants the
engine never reads back, so they are omitted). -/
structure Tree where
  x : ℚ
  z : ℚ
  modelIndex : ℤ
deriving DecidableEq

/-- One car as pushed by spawnCarsOnRow (y and scale omitted as for trees). -/
structure Car where
  x : ℚ
  z : ℚ
  speed : ℚ
  direction : ℤ
  minZ : ℚ
  maxZ : ℚ
  modelIndex : ℤ
deriving DecidableEq

/-- createRow(xPosition): grass by default; if xPosition > -5 a draw below
0.4 makes it a road, in which case a second draw picks the direction and a
third the speed 3 + rand * 7.  The cursor advances exactly as Math.random()
is called (no draw at all when xPosition <= -5, by short-circuit). -/
def createRow (rng : ℕ → ℚ) (xPosition : ℚ) (k : ℕ) : Row × ℕ :=
  if xPosition > -5 then
    if rng k < 2/5 then
      ({ x := xPosition, type := .road, modelIndex := 7,
         direction := some (if rng (k+1) < 1/2 then -1 else 1),
         speed := some (3 + rng (k+2) * 7) }, k+3)
    else
      ({ x := xPosition, type := .grass, modelIndex := 6,
         direction := none, speed := none }, k+1)
  else
    ({ x := xPosition, type := .grass, modelIndex := 6,
       direction := none, speed := none }, k)

/-- Lateral slots of one row: zOffset from -halfWidth to halfWidth. -/
def zSlots : List ℤ := (List.range TERRAIN_WIDTH).map (fun i => (i : ℤ) - halfWidth)

/-- Body of the per-slot loop of spawnTreesOnRow: skip the keep-clear zone
around the spawn point (no draw), otherwise draw; on a draw below 0.15 draw
again for the variant and push a tree. -/
def treeSlotStep (rng : ℕ → ℚ) (rowX : ℚ) (acc : List Tree × ℕ) (z : ℤ) :
    List Tree × ℕ :=
  if |rowX - (-5)| < 3 ∧ |(z : ℚ)| < 3 then acc
  else if rng acc.2 < 3/20 then
    (acc.1 ++ [{ x := rowX, z := (z : ℚ),
                 modelIndex := 8 + Int.floor (rng (acc.2+1) * 5) }], acc.2 + 2)
  else (acc.1, acc.2 + 1)

/-- spawnTreesOnRow(row): only grass rows get trees; returns the list of
newly pushed trees. -/
def spawnTreesOnRow (rng : ℕ → ℚ) (row : Row) (k : ℕ) : List Tree × ℕ :=
  if row.type = .grass then zSlots.foldl (treeSlotStep rng row.x) ([], k)
  else ([], k)

/-- One candidate-car attempt of spawnCarsOnRow: draw a lateral position,
reject it when an already existing car on the same row x is closer than 3,
otherwise draw a model and push.  The accumulator holds the whole global
cars array, as the source reads it for the spacing check. -/
def carTryStep (rng : ℕ → ℚ) (row : Row) (acc : List Car × ℕ) : List Car × ℕ :=
  let randomZ := rng acc.2 * (2 * (halfWidth : ℚ)) - (halfWidth : ℚ)
  if acc.1.any (fun c => decide (c.x = row.x ∧ |c.z - randomZ| < 3)) then
    (acc.1, acc.2 + 1)
  else
    (acc.1 ++ [{ x := row.x, z := randomZ, speed := row.speed.getD 0,
                 direction := row.direction.getD 0,
                 minZ := -(halfWidth : ℚ), maxZ := (halfWidth : ℚ),
                 modelIndex := Int.floor (rng (acc.2+1) * 4) }], acc.2 + 2)

/-- spawnCarsOnRow(row): only road rows get cars; 2 to 4 attempts, each via
carTryStep.  Takes and returns the whole global cars array.  The getD 0
defaults in carTryStep are never reached off the road branch, and on the
road branch createRow always set both fields. -/
def spawnCarsOnRow (rng : ℕ → ℚ) (row : Row) (cars : List Car) (k : ℕ) :
    List Car × ℕ :=
  if row.type = .road then
    (List.range ((Int.floor (rng k * 3)).toNat + 2)).foldl
      (fun acc _ => carTryStep rng row acc) (cars, k+1)
  else (cars, k)

/-- The World Window: the module-level arrays terrainRows, trees, cars. -/
structure TerrainState where
  rows : List Row
  trees : List Tree
  cars : List Car
deriving DecidableEq

/-- Create one row at x, push it, then spawn its trees and cars, exactly as
the bodies of the initTerrain and updateTerrain loops do. -/
def spawnRow (rng : ℕ → ℚ) (x : ℚ) (tsk : TerrainState × ℕ) : TerrainState × ℕ :=
  let rk := createRow rng x tsk.2
  let tk := spawnTreesOnRow rng rk.1 rk.2
  let ck := spawnCarsOnRow rng rk.1 tsk.1.cars tk.2
  ({ rows := tsk.1.rows ++ [rk.1], trees := tsk.1.trees ++ tk.1,
     cars := ck.1 }, ck.2)

/-- initTerrain(startX): rows at startX + i for i = -10 .. DRAW_DISTANCE - 1,
pushed onto empty arrays. -/
def initTerrain (rng : ℕ → ℚ) (startX : ℚ) (k : ℕ) : TerrainState × ℕ :=
  (List.range 50).foldl
    (fun tsk i => spawnRow rng (startX + ((i : ℤ) - 10 : ℤ)) tsk)
    (⟨[], [], []⟩, k)

/-- The x coordinate of the newest row, 0 when there is none, as the source
computes lastX. -/
def lastRowX (ts : TerrainState) : ℚ := (ts.rows.getLast?).elim 0 Row.x

/-- The while loop that appends rows until lastX reaches thr, with explicit
fuel; each iteration first advances lastX by ROW_DEPTH and then creates the
row there, exactly as the source does. -/
def addRows (rng : ℕ → ℚ) (thr : ℚ) :
    ℕ → ℚ → TerrainState × ℕ → TerrainState × ℕ
  | 0, _, tsk => tsk
  | fuel + 1, lastX, tsk =>
      if lastX < thr then
        addRows rng thr fuel (lastX + ROW_DEPTH)
          (spawnRow rng (lastX + ROW_DEPTH) tsk)
      else tsk

/-- updateTerrain(currentCameraX): evict rows from the front while behind
cameraX - 15, filter trees and cars by the same threshold, then append rows
until the newest one reaches cameraX + DRAW_DISTANCE.  The fuel
(thr - lastX).ceil.toNat is exactly the number of iterations the source
while loop performs, since every iteration advances lastX by 1. -/
def updateTerrain (rng : ℕ → ℚ) (c : ℚ) (tsk : TerrainState × ℕ) :
    TerrainState × ℕ :=
  let thrLow := c - 15
  let ts1 : TerrainState :=
    { rows := tsk.1.rows.dropWhile (fun r => decide (r.x < thrLow)),
      trees := tsk.1.trees.filter (fun t => decide (thrLow ≤ t.x)),
      cars := tsk.1.cars.filter (fun cr => decide (thrLow ≤ cr.x)) }
  let lastX := lastRowX ts1
  let thrHigh := c + DRAW_DISTANCE
  addRows rng thrHigh (Int.ceil (thrHigh - lastX)).toNat lastX (ts1, tsk.2)

/-- The mutable module-level engine state: player pose, camera, score
bookkeeping, session flags, the World Window arrays and the random cursor.
scoreText is the integer shown in the score element; rotationY the heading
in degrees. -/
structure GameState where
  playerX : ℚ
  playerZ : ℚ
  rotationY : ℤ
  cameraX : ℚ
  maxDistanceX : ℚ
  scoreText : ℤ
  isPaused : Bool
  isGameOver : Bool
  terrain : TerrainState
  rngK : ℕ
deriving DecidableEq

/-- checkCollisionWithTrees(newX, newZ): some tree within 0.5 on both axes. -/
def checkCollisionWithTrees (trees : List Tree) (newX newZ : ℚ) : Bool :=
  trees.any (fun tree => decide (|tree.x - newX| < 1/2 ∧ |tree.z - newZ| < 1/2))

/-- checkCollisionWithCars(newX, newZ): some car within 0.7 on both axes. -/
def checkCollisionWithCars (cars : List Car) (newX newZ : ℚ) : Bool :=
  cars.any (fun car => decide (|car.x - newX| < 7/10 ∧ |car.z - newZ| < 7/10))

/-- The four movement intents handled by keyDown (w, s, a, d).  The keys
1, 2 and c only touch projection and camera view modes, which no claim
reads, so they are omitted. -/
inductive MoveKey
  | kw
  | ks
  | ka
  | kd
deriving DecidableEq

/-- keyDown: ignored while paused; each move proposes a target, applies it
unless vetoed (tree collision, and for a and d also the lateral bound), and
unconditionally sets the heading of the attempted move. -/
def keyDown (s : GameState) (key : MoveKey) : GameState :=
  if s.isPaused then s
  else
    match key with
    | .kw =>
        let newXForward := s.playerX + stepSize
        let s1 := if checkCollisionWithTrees s.terrain.trees newXForward s.playerZ
          then s else { s with playerX := newXForward }
        { s1 with rotationY := 90 }
    | .ks =>
        let newXBackward := s.playerX - stepSize
        let s1 := if checkCollisionWithTrees s.terrain.trees newXBackward s.playerZ
          then s else { s with playerX := newXBackward }
        { s1 with rotationY := 270 }
    | .ka =>
        let newZLeft := s.playerZ - stepSize
        let s1 := if -(boundaryLimit : ℚ) ≤ newZLeft ∧
            checkCollisionWithTrees s.terrain.trees s.playerX newZLeft = false
          then { s with playerZ := newZLeft } else s
        { s1 with rotationY := 180 }
    | .kd =>
        let newZRight := s.playerZ + stepSize
        let s1 := if newZRight ≤ (boundaryLimit : ℚ) ∧
            checkCollisionWithTrees s.terrain.trees s.playerX newZRight = false
          then { s with playerZ := newZRight } else s
        { s1 with rotationY := 0 }

/-- gameOver(): raise both flags (the final-score DOM text is UI only). -/
def gameOverF (s : GameState) : GameState :=
  { s with isPaused := true, isGameOver := true }

/-- One car of the cars.forEach update of drawScene: propose z plus
speed * direction * dt, stall when another car on the same row would end up
closer than 2, then wrap past maxZ to minZ (or symmetrically) depending on
the sign of the real velocity.  others is every other car in the array at
this moment: the ones before it already moved, the ones after not yet. -/
def moveCarStep (dt : ℚ) (others : List Car) (car : Car) : Car :=
  let newZ := car.z + car.speed * (car.direction : ℚ) * dt
  let c1 := if others.any (fun o => decide (o.x = car.x ∧ |o.z - newZ| < 2))
    then car else { car with z := newZ }
  let v := car.speed * (car.direction : ℚ)
  if v > 0 ∧ c1.maxZ < c1.z then { c1 with z := c1.minZ }
  else if v < 0 ∧ c1.z < c1.minZ then { c1 with z := c1.maxZ }
  else c1

/-- The in-place cars.forEach loop: done holds the already updated front of
the array, rest the not yet visited tail. -/
def moveCarsAux (dt : ℚ) : List Car → List Car → List Car
  | done, [] => done
  | done, car :: rest => moveCarsAux dt (done ++ [moveCarStep dt (done ++ rest) car]) rest

/-- Update every car position for one tick. -/
def moveCars (dt : ℚ) (cars : List Car) : List Car :=
  moveCarsAux dt [] cars

/-- restartGame(): reset flags, player pose, camera, score bookkeeping,
clear the arrays and rebuild the terrain at -12; the delta-time baseline
reset is the caller passing a fresh dt. -/
def restartGame (rng : ℕ → ℚ) (s : GameState) : GameState :=
  let tk := initTerrain rng (-12) s.rngK
  { playerX := -5, playerZ := 0, rotationY := 90, cameraX := -12,
    maxDistanceX := initialX, scoreText := 0,
    isPaused := false, isGameOver := false,
    terrain := tk.1, rngK := tk.2 }

/-- One call of drawScene past the clock bookkeeping, with dt the derived
delta-time in seconds and wH the worldHeight (worldWidth 6.0 divided by the
canvas aspect ratio, an external quantity).  While paused nothing moves.
Otherwise, in source order: score update, autoscroll advance, left-behind
check, camera pull, car movement, lethal car collision, terrain window
update.  updateHeadlights and all drawing only write GPU state and are
omitted. -/
def drawSceneTick (rng : ℕ → ℚ) (wH dt : ℚ) (s : GameState) : GameState :=
  if s.isPaused then s
  else
    let s1 := if s.maxDistanceX < s.playerX then
        { s with maxDistanceX := s.playerX,
                 scoreText := Int.floor ((s.playerX - initialX) / stepSize) }
      else s
    let s2 := { s1 with cameraX := s1.cameraX + scrollSpeed * dt }
    let s3 := if s2.playerX < s2.cameraX + 19/5 then gameOverF s2 else s2
    let minCameraYForPlayer := s3.playerX + wH / 6 - 10
    let s4 := if s3.cameraX < minCameraYForPlayer then
        { s3 with cameraX := minCameraYForPlayer } else s3
    let s5 := { s4 with terrain :=
        { s4.terrain with cars := moveCars dt s4.terrain.cars } }
    let s6 := if checkCollisionWithCars s5.terrain.cars s5.playerX s5.playerZ
      then gameOverF s5 else s5
    let tk := updateTerrain rng s6.cameraX (s6.terrain, s6.rngK)
    { s6 with terrain := tk.1, rngK := tk.2 }

/-- Score phase of the tick, as a standalone function. -/
def scorePhase (s : GameState) : GameState :=
  if s.maxDistanceX < s.playerX then
    { s with maxDistanceX := s.playerX,
             scoreText := Int.floor ((s.playerX - initialX) / stepSize) }
  else s

/-- Autoscroll advance phase of the tick. -/
def scrollPhase (dt : ℚ) (s : GameState) : GameState :=
  { s with cameraX := s.cameraX + scrollSpeed * dt }

/-- Left-behind session check phase of the tick. -/
def leftBehindPhase (s : GameState) : GameState :=
  if s.playerX < s.cameraX + 19/5 then gameOverF s else s

/-- Camera pull phase of the tick. -/
def pullPhase (wH : ℚ) (s : GameState) : GameState :=
  if s.cameraX < s.playerX + wH / 6 - 10 then
    { s with cameraX := s.playerX + wH / 6 - 10 } else s

/-- Traffic movement phase of the tick. -/
def trafficPhase (dt : ℚ) (s : GameState) : GameState :=
  { s with terrain := { s.terrain with cars := moveCars dt s.terrain.cars } }

/-- Lethal car collision phase of the tick. -/
def carCollisionPhase (s : GameState) : GameState :=
  if checkCollisionWithCars s.terrain.cars s.playerX s.playerZ
  then gameOverF s else s

/-- World Window extend and evict phase of the tick. -/
def terrainPhase (rng : ℕ → ℚ) (s : GameState) : GameState :=
  let tk := updateTerrain rng s.cameraX (s.terrain, s.rngK)
  { s with terrain := tk.1, rngK := tk.2 }

/-- Modelled from the spec: the tick order stated in section 5 of the spec
(clock, scroll, window extend and evict, traffic, collision detection,
score update, session transition); delta-time is the clock output, the
scroll step includes the camera pull of the Camera controller, and the
session transition applies the lethal collision and left-behind exits. -/
def specOrderTick (rng : ℕ → ℚ) (wH dt : ℚ) (s : GameState) : GameState :=
  if s.isPaused then s
  else
    let s1 := pullPhase wH (scrollPhase dt s)
    let s2 := terrainPhase rng s1
    let s3 := trafficPhase dt s2
    let lethal := checkCollisionWithCars s3.terrain.cars s3.playerX s3.playerZ
    let s4 := scorePhase s3
    if lethal ∨ s4.playerX < s4.cameraX + 19/5 then gameOverF s4 else s4

/-- The events a session can receive between renders: a tick with its
delta-time, a movement key, the pause button and the restart button. -/
inductive GEvent
  | tick (dt : ℚ)
  | key (k : MoveKey)
  | pauseToggle
  | restartClick
deriving DecidableEq

/-- Dispatch one event: the tick callback, keyDown, the pause button click
listener (isPaused = !isPaused, unconditionally) or the restart button. -/
def stepEvent (rng : ℕ → ℚ) (wH : ℚ) (s : GameState) : GEvent → GameState
  | .tick dt => drawSceneTick rng wH dt s
  | .key k => keyDown s k
  | .pauseToggle => { s with isPaused := !s.isPaused }
  | .restartClick => restartGame rng s

/-- The x coordinate of the target a key proposes (before any veto). -/
def proposedX (s : GameState) : MoveKey → ℚ
  | .kw => s.playerX + stepSize
  | .ks => s.playerX - stepSize
  | .ka => s.playerX
  | .kd => s.playerX

/-- The z coordinate of the target a key proposes (before any veto). -/
def proposedZ (s : GameState) : MoveKey → ℚ
  | .kw => s.playerZ
  | .ks => s.playerZ
  | .ka => s.playerZ - stepSize
  | .kd => s.playerZ + stepSize

/-- The heading in degrees each key assigns to the player. -/
def headingOf : MoveKey → ℤ
  | .kw => 90
  | .ks => 270
  | .ka => 180
  | .kd => 0

/-- The veto condition of each key: the tree test for w and s, the lateral
bound together with the tree test for a and d. -/
def moveVetoed (s : GameState) : MoveKey → Prop
  | .kw => checkCollisionWithTrees s.terrain.trees (s.playerX + stepSize) s.playerZ = true
  | .ks => checkCollisionWithTrees s.terrain.trees (s.playerX - stepSize) s.playerZ = true
  | .ka => ¬(-(boundaryLimit : ℚ) ≤ s.playerZ - stepSize ∧
      checkCollisionWithTrees s.terrain.trees s.playerX (s.playerZ - stepSize) = false)
  | .kd => ¬(s.playerZ + stepSize ≤ (boundaryLimit : ℚ) ∧
      checkCollisionWithTrees s.terrain.trees s.playerX (s.playerZ + stepSize) = false)

/-- A car is laterally inside its own wrap bounds. -/
def carInBounds (c : Car) : Prop := c.minZ ≤ c.z ∧ c.z ≤ c.maxZ

/-- The score element always shows floor((maxDistanceX - initialX) / step);
true at page load (text 0, maxDistanceX = initialX) and after every event. -/
def scoreInv (s : GameState) : Prop :=
  s.scoreText = Int.floor ((s.maxDistanceX - initialX) / stepSize)

/-- Well-formedness of the World Window against a camera position: some row
exists, rows are strictly sorted by x, the newest row is below
camera + DRAW_DISTANCE + ROW_DEPTH, and no tree or car is ahead of the
newest row. -/
def WF (ts : TerrainState) (c : ℚ) : Prop :=
  ts.rows ≠ [] ∧
  ts.rows.Pairwise (fun a b => a.x < b.x) ∧
  lastRowX ts < c + DRAW_DISTANCE + ROW_DEPTH ∧
  (∀ t ∈ ts.trees, t.x ≤ lastRowX ts) ∧
  (∀ cr ∈ ts.cars, cr.x ≤ lastRowX ts)

/-- A concrete random stream whose draws are all 0, used to instantiate
universally quantified statements at explicit inputs. -/
def rng0 : ℕ → ℚ := fun _ => 0

/-- The engine state right after main() finishes loading: player at (-5, 0)
heading 90, camera at -12, score 0, flags down, terrain initialised at -12. -/
def initialState (rng : ℕ → ℚ) : GameState :=
  let tk := initTerrain rng (-12) 0
  { playerX := -5, playerZ := 0, rotationY := 90, cameraX := -12,
    maxDistanceX := initialX, scoreText := 0, isPaused := false,
    isGameOver := false, terrain := tk.1, rngK := tk.2 }

/-- A single grass row placed at x = 40, with no trees or cars on it. -/
def farRow : Row :=
  { x := 40, type := .grass, modelIndex := 6, direction := none, speed := none }

/-- A concrete game-over state: both flags up, player at (4, 0), camera at
0, window holding only farRow.  Such flag values are exactly what gameOver()
leaves behind. -/
def overState : GameState :=
  { playerX := 4, playerZ := 0, rotationY := 90, cameraX := 0,
    maxDistanceX := 4, scoreText := 9, isPaused := true, isGameOver := true,
    terrain := { rows := [farRow], trees := [], cars := [] }, rngK := 0 }

/-- The same concrete state with the session running (both flags down). -/
def runningState : GameState :=
  { playerX := 4, playerZ := 0, rotationY := 90, cameraX := 0,
    maxDistanceX := 4, scoreText := 9, isPaused := false, isGameOver := false,
    terrain := { rows := [farRow], trees := [], cars := [] }, rngK := 0 }

/-- A running state with a single tree at (-4, 0), one step ahead of the
player at (-5, 0). -/
def treeState : GameState :=
  { playerX := -5, playerZ := 0, rotationY := 90, cameraX := -12,
    maxDistanceX := -5, scoreText := 0, isPaused := false, isGameOver := false,
    terrain := { rows := [farRow], trees := [{ x := -4, z := 0, modelIndex := 8 }],
                 cars := [] }, rngK := 0 }

/-- A running state with a single tree at (-5, -1), one strafe left of the
player at (-5, 0). -/
def treeLeftState : GameState :=
  { playerX := -5, playerZ := 0, rotationY := 90, cameraX := -12,
    maxDistanceX := -5, scoreText := 0, isPaused := false, isGameOver := false,
    terrain := { rows := [farRow], trees := [{ x := -5, z := -1, modelIndex := 8 }],
                 cars := [] }, rngK := 0 }

/-! Projection facts for the tick phases. -/

theorem gameOverF_isGameOver (s : GameState) : (gameOverF s).isGameOver = true := rfl

theorem gameOverF_isPaused (s : GameState) : (gameOverF s).isPaused = true := rfl

theorem gameOverF_scoreText (s : GameState) : (gameOverF s).scoreText = s.scoreText := rfl

theorem gameOverF_maxDistanceX (s : GameState) :
    (gameOverF s).maxDistanceX = s.maxDistanceX := rfl

theorem scorePhase_playerX (s : GameState) : (scorePhase s).playerX = s.playerX := by
  unfold scorePhase; split <;> rfl

theorem scorePhase_cameraX (s : GameState) : (scorePhase s).cameraX = s.cameraX := by
  unfold scorePhase; split <;> rfl

theorem scorePhase_isPaused (s : GameState) : (scorePhase s).isPaused = s.isPaused := by
  unfold scorePhase; split <;> rfl

theorem scorePhase_isGameOver (s : GameState) : (scorePhase s).isGameOver = s.isGameOver := by
  unfold scorePhase; split <;> rfl

theorem scrollPhase_playerX (dt : ℚ) (s : GameState) :
    (scrollPhase dt s).playerX = s.playerX := rfl

theorem scrollPhase_cameraX (dt : ℚ) (s : GameState) :
    (scrollPhase dt s).cameraX = s.cameraX + scrollSpeed * dt := rfl

theorem scrollPhase_scoreText (dt : ℚ) (s : GameState) :
    (scrollPhase dt s).scoreText = s.scoreText := rfl

theorem scrollPhase_maxDistanceX (dt : ℚ) (s : GameState) :
    (scrollPhase dt s).maxDistanceX = s.maxDistanceX := rfl

theorem leftBehindPhase_scoreText (s : GameState) :
    (leftBehindPhase s).scoreText = s.scoreText := by
  unfold leftBehindPhase; split <;> rfl

theorem leftBehindPhase_maxDistanceX (s : GameState) :
    (leftBehindPhase s).maxDistanceX = s.maxDistanceX := by
  unfold leftBehindPhase; split <;> rfl

theorem pullPhase_scoreText (wH : ℚ) (s : GameState) :
    (pullPhase wH s).scoreText = s.scoreText := by
  unfold pullPhase; split <;> rfl

theorem pullPhase_maxDistanceX (wH : ℚ) (s : GameState) :
    (pullPhase wH s).maxDistanceX = s.maxDistanceX := by
  unfold pullPhase; split <;> rfl

theorem pullPhase_isGameOver (wH : ℚ) (s : GameState) :
    (pullPhase wH s).isGameOver = s.isGameOver := by
  unfold pullPhase; split <;> rfl

theorem pullPhase_isPaused (wH : ℚ) (s : GameState) :
    (pullPhase wH s).isPaused = s.isPaused := by
  unfold pullPhase; split <;> rfl

theorem trafficPhase_scoreText (dt : ℚ) (s : GameState) :
    (trafficPhase dt s).scoreText = s.scoreText := rfl

theorem trafficPhase_maxDistanceX (dt : ℚ) (s : GameState) :
    (trafficPhase dt s).maxDistanceX = s.maxDistanceX := rfl

theorem trafficPhase_isGameOver (dt : ℚ) (s : GameState) :
    (trafficPhase dt s).isGameOver = s.isGameOver := rfl

theorem trafficPhase_isPaused (dt : ℚ) (s : GameState) :
    (trafficPhase dt s).isPaused = s.isPaused := rfl

theorem carCollisionPhase_scoreText (s : GameState) :
    (carCollisionPhase s).scoreText = s.scoreText := by
  unfold carCollisionPhase; split <;> rfl

theorem carCollisionPhase_maxDistanceX (s : GameState) :
    (carCollisionPhase s).maxDistanceX = s.maxDistanceX := by
  unfold carCollisionPhase; split <;> rfl

theorem carCollisionPhase_isGameOver_true (s : GameState) (h : s.isGameOver = true) :
    (carCollisionPhase s).isGameOver = true := by
  unfold carCollisionPhase; split
  · exact gameOverF_isGameOver s
  · exact h

theorem carCollisionPhase_isPaused_true (s : GameState) (h : s.isPaused = true) :
    (carCollisionPhase s).isPaused = true := by
  unfold carCollisionPhase; split
  · exact gameOverF_isPaused s
  · exact h

theorem terrainPhase_scoreText (rng : ℕ → ℚ) (s : GameState) :
    (terrainPhase rng s).scoreText = s.scoreText := rfl

theorem terrainPhase_maxDistanceX (rng : ℕ → ℚ) (s : GameState) :
    (terrainPhase rng s).maxDistanceX = s.maxDistanceX := rfl

theorem terrainPhase_isGameOver (rng : ℕ → ℚ) (s : GameState) :
    (terrainPhase rng s).isGameOver = s.isGameOver := rfl

theorem terrainPhase_isPaused (rng : ℕ → ℚ) (s : GameState) :
    (terrainPhase rng s).isPaused = s.isPaused := rfl

/-- drawSceneTick is, phase by phase, the composition score, scroll,
left-behind check, camera pull, traffic, car collision, terrain window. -/
theorem tick_phases (rng : ℕ → ℚ) (wH dt : ℚ) (s : GameState) :
    drawSceneTick rng wH dt s =
      if s.isPaused then s
      else terrainPhase rng (carCollisionPhase (trafficPhase dt
        (pullPhase wH (leftBehindPhase (scrollPhase dt (scorePhase s)))))) := rfl

/-- Claim C1: while the session is Running, a movement intent whose proposed
target is inside the tree proximity predicate of some live tree is rejected
and the player position is unchanged by that intent. -/
theorem tree_block_rejects_move (s : GameState) (key : MoveKey)
    (hrun : s.isPaused = false ∧ s.isGameOver = false)
    (hcol : checkCollisionWithTrees s.terrain.trees
      (proposedX s key) (proposedZ s key) = true) :
    (keyDown s key).playerX = s.playerX ∧ (keyDown s key).playerZ = s.playerZ := by
  cases key <;>
  · simp only [proposedX, proposedZ] at hcol
    simp [keyDown, hrun.1, hcol]

unseal Rat.add Rat.sub Rat.mul Rat.inv in
/-- Witness for C1: from a running state with one tree at (-4, 0), a forward
move proposes (-4, 0), collides, and leaves the player at (-5, 0). -/
theorem tree_block_rejects_move_witness :
    (keyDown treeState MoveKey.kw).playerX = treeState.playerX ∧
    (keyDown treeState MoveKey.kw).playerZ = treeState.playerZ :=
  tree_block_rejects_move treeState MoveKey.kw (by constructor <;> rfl) (by decide)

/-- Claim C10: while Running, every movement intent sets the heading to the
direction of the attempted move, even when the positional change is vetoed
by the tree test or the lateral bound check; a vetoed move still leaves the
position unchanged. -/
theorem heading_set_even_when_vetoed (s : GameState) (key : MoveKey)
    (hrun : s.isPaused = false ∧ s.isGameOver = false) :
    (keyDown s key).rotationY = headingOf key ∧
    (moveVetoed s key →
      (keyDown s key).playerX = s.playerX ∧ (keyDown s key).playerZ = s.playerZ) := by
  cases key with
  | kw =>
      refine ⟨?_, fun hv => ?_⟩ <;> unfold keyDown <;>
        rw [hrun.1, if_neg Bool.false_ne_true] <;> dsimp only
      · rfl
      · simp only [moveVetoed] at hv
        rw [if_pos hv]
        exact ⟨rfl, rfl⟩
  | ks =>
      refine ⟨?_, fun hv => ?_⟩ <;> unfold keyDown <;>
        rw [hrun.1, if_neg Bool.false_ne_true] <;> dsimp only
      · rfl
      · simp only [moveVetoed] at hv
        rw [if_pos hv]
        exact ⟨rfl, rfl⟩
  | ka =>
      refine ⟨?_, fun hv => ?_⟩ <;> unfold keyDown <;>
        rw [hrun.1, if_neg Bool.false_ne_true] <;> dsimp only
      · rfl
      · simp only [moveVetoed] at hv
        rw [if_neg hv]
        exact ⟨rfl, rfl⟩
  | kd =>
      refine ⟨?_, fun hv => ?_⟩ <;> unfold keyDown <;>
        rw [hrun.1, if_neg Bool.false_ne_true] <;> dsimp only
      · rfl
      · simp only [moveVetoed] at hv
        rw [if_neg hv]
        exact ⟨rfl, rfl⟩

/-- Witness for C10: a strafe left into a tree at (-5, -1) is vetoed, yet
the heading changes from 90 to 180 while the position stays (-5, 0). -/
theorem heading_set_even_when_vetoed_witness :
    (keyDown treeLeftState MoveKey.ka).rotationY = headingOf MoveKey.ka ∧
    (moveVetoed treeLeftState MoveKey.ka →
      (keyDown treeLeftState MoveKey.ka).playerX = treeLeftState.playerX ∧
      (keyDown treeLeftState MoveKey.ka).playerZ = treeLeftState.playerZ) :=
  heading_set_even_when_vetoed treeLeftState MoveKey.ka (by constructor <;> rfl)

/-- Claim C9 amended: createRow forces Grass exactly on the closed half-line
x <= -5 through the spawn coordinate; a Road row can only be produced at
x > -5 (arbitrarily close ahead of spawn), whatever the random draws. -/
theorem safety_zone_amended (rng : ℕ → ℚ) (x : ℚ) (k : ℕ) :
    ((createRow rng x k).1.type = RowType.road → -5 < x) ∧
    (x ≤ -5 → (createRow rng x k).1.type = RowType.grass) := by
  unfold createRow
  by_cases hx : x > -5
  · rw [if_pos hx]
    exact ⟨fun _ => hx, fun hle => absurd hx (not_lt.mpr hle)⟩
  · rw [if_neg hx]
    exact ⟨fun h => by simp at h, fun _ => rfl⟩

/-- Witness for C9: at x = -10 the generated row is Grass. -/
theorem safety_zone_amended_witness :
    (createRow rng0 (-10) 0).1.type = RowType.grass :=
  (safety_zone_amended rng0 (-10) 0).2 (by norm_num)

/-- Counterexample for C9 as stated: no positive safety radius around the
spawn coordinate -5 forces Grass, because for every d > 0 the coordinate
-5 + d/2 is within d of spawn and still draws a Road with the zero stream. -/
theorem safety_zone_counterexample :
    ¬ ∃ d : ℚ, 0 < d ∧ ∀ (x : ℚ) (rng : ℕ → ℚ) (k : ℕ),
        |x - (-5)| < d → (createRow rng x k).1.type = RowType.grass := by
  rintro ⟨d, hd, h⟩
  have habs : |(-5 : ℚ) + d/2 - (-5)| < d := by
    have : ((-5 : ℚ) + d/2 - (-5)) = d/2 := by ring
    rw [this, abs_of_pos (by linarith)]
    linarith
  have h2 := h (-5 + d/2) rng0 0 habs
  rw [createRow, if_pos (by linarith : (-5 : ℚ) + d/2 > -5),
    if_pos (by norm_num [rng0] : rng0 0 < 2/5)] at h2
  simp at h2

/-- Claim C2: on every tick on which, right after the autoscroll advance,
the player lane coordinate is behind cameraX + 3.8, the session leaves
Running for GameOver on that same tick. -/
theorem left_behind_triggers_game_over (rng : ℕ → ℚ) (wH dt : ℚ) (s : GameState)
    (hrun : s.isPaused = false ∧ s.isGameOver = false)
    (hbehind : s.playerX < s.cameraX + scrollSpeed * dt + 19/5) :
    (drawSceneTick rng wH dt s).isGameOver = true ∧
    (drawSceneTick rng wH dt s).isPaused = true := by
  rw [tick_phases, if_neg (by rw [hrun.1]; exact Bool.false_ne_true)]
  have hcond : (scrollPhase dt (scorePhase s)).playerX <
      (scrollPhase dt (scorePhase s)).cameraX + 19/5 := by
    rw [scrollPhase_playerX, scrollPhase_cameraX, scorePhase_playerX, scorePhase_cameraX]
    linarith
  have h3 : leftBehindPhase (scrollPhase dt (scorePhase s)) =
      gameOverF (scrollPhase dt (scorePhase s)) := by
    unfold leftBehindPhase
    rw [if_pos hcond]
  rw [h3]
  constructor
  · rw [terrainPhase_isGameOver]
    apply carCollisionPhase_isGameOver_true
    rw [trafficPhase_isGameOver, pullPhase_isGameOver, gameOverF_isGameOver]
  · rw [terrainPhase_isPaused]
    apply carCollisionPhase_isPaused_true
    rw [trafficPhase_isPaused, pullPhase_isPaused, gameOverF_isPaused]

unseal Rat.add Rat.sub Rat.mul Rat.inv in
/-- Witness for C2: with dt = 2 the scroll reaches 2/5 and the player at 4
is behind 2/5 + 19/5, so the tick ends in GameOver. -/
theorem left_behind_triggers_game_over_witness :
    (drawSceneTick rng0 3 2 runningState).isGameOver = true ∧
    (drawSceneTick rng0 3 2 runningState).isPaused = true :=
  left_behind_triggers_game_over rng0 3 2 runningState (by constructor <;> rfl)
    (by decide)

/-- One car move-and-wrap step keeps the car inside its spawn bounds. -/
theorem moveCarStep_inBounds (dt : ℚ) (others : List Car) (car : Car)
    (hdt : 0 ≤ dt) (h1 : car.minZ ≤ car.z) (h2 : car.z ≤ car.maxZ) :
    carInBounds (moveCarStep dt others car) := by
  unfold moveCarStep carInBounds
  dsimp only
  by_cases hstall : (others.any fun o =>
      decide (o.x = car.x ∧ |o.z - (car.z + car.speed * (car.direction : ℚ) * dt)| < 2)) = true
  · rw [if_pos hstall]
    split
    · exact ⟨le_refl _, h1.trans h2⟩
    · split
      · exact ⟨h1.trans h2, le_refl _⟩
      · exact ⟨h1, h2⟩
  · rw [if_neg hstall]
    split
    · exact ⟨le_refl _, h1.trans h2⟩
    next hw =>
      split
      · exact ⟨h1.trans h2, le_refl _⟩
      next hw2 =>
        dsimp only at hw hw2 ⊢
        constructor
        · rcases lt_or_le (car.speed * (car.direction : ℚ)) 0 with hv | hv
          · by_contra hlt
            push_neg at hlt
            exact hw2 ⟨hv, hlt⟩
          · have hnn : 0 ≤ car.speed * (car.direction : ℚ) * dt := mul_nonneg hv hdt
            linarith
        · rcases lt_or_le 0 (car.speed * (car.direction : ℚ)) with hv | hv
          · by_contra hlt
            push_neg at hlt
            exact hw ⟨hv, hlt⟩
          · have hnp : car.speed * (car.direction : ℚ) * dt ≤ 0 := by
              nlinarith [mul_nonneg (neg_nonneg.2 hv) hdt]
            linarith

/-- The in-place traffic loop keeps every car inside its bounds. -/
theorem moveCarsAux_inBounds (dt : ℚ) (hdt : 0 ≤ dt) :
    ∀ (rest done : List Car), (∀ c ∈ done, carInBounds c) →
      (∀ c ∈ rest, carInBounds c) →
      ∀ c ∈ moveCarsAux dt done rest, carInBounds c := by
  intro rest
  induction rest with
  | nil =>
      intro done h1 _ c hc
      exact h1 c (by simpa [moveCarsAux] using hc)
  | cons car rest ih =>
      intro done h1 h2 c hc
      rw [moveCarsAux] at hc
      refine ih (done ++ [moveCarStep dt (done ++ rest) car]) ?_ ?_ c hc
      · intro c2 hc2
        rcases List.mem_append.mp hc2 with h | h
        · exact h1 c2 h
        · rcases List.mem_singleton.mp h with rfl
          have hcar := h2 car (List.mem_cons_self _ _)
          exact moveCarStep_inBounds dt _ car hdt hcar.1 hcar.2
      · intro c2 hc2
        exact h2 c2 (List.mem_cons_of_mem _ hc2)

/-- One spawn attempt only adds cars that start inside their bounds, as the
lateral draw r * 30 - 15 lies in [-15, 15) for r in [0, 1). -/
theorem carTryStep_inBounds (rng : ℕ → ℚ) (row : Row) (acc : List Car × ℕ)
    (hr : ∀ n, 0 ≤ rng n ∧ rng n < 1) (h : ∀ c ∈ acc.1, carInBounds c) :
    ∀ c ∈ (carTryStep rng row acc).1, carInBounds c := by
  unfold carTryStep
  dsimp only
  split
  · exact h
  · intro c hc
    rcases List.mem_append.mp hc with h2 | h2
    · exact h c h2
    · rcases List.mem_singleton.mp h2 with rfl
      unfold carInBounds
      dsimp only
      have h0 := (hr acc.2).1
      have h1 := (hr acc.2).2
      have hcast : ((halfWidth : ℤ) : ℚ) = 15 := by norm_num [halfWidth]
      rw [hcast]
      constructor
      · nlinarith
      · nlinarith

/-- spawnCarsOnRow only adds cars that start inside their bounds. -/
theorem spawnCarsOnRow_inBounds (rng : ℕ → ℚ) (row : Row) (cars0 : List Car) (k : ℕ)
    (hr : ∀ n, 0 ≤ rng n ∧ rng n < 1) (h : ∀ c ∈ cars0, carInBounds c) :
    ∀ c ∈ (spawnCarsOnRow rng row cars0 k).1, carInBounds c := by
  unfold spawnCarsOnRow
  split
  · have fold : ∀ (l : List ℕ) (acc : List Car × ℕ), (∀ c ∈ acc.1, carInBounds c) →
        ∀ c ∈ (l.foldl (fun a _ => carTryStep rng row a) acc).1, carInBounds c := by
      intro l
      induction l with
      | nil => intro acc ha; simpa using ha
      | cons n l ih =>
          intro acc ha
          rw [List.foldl_cons]
          exact ih _ (carTryStep_inBounds rng row acc hr ha)
    exact fold _ (cars0, k+1) h
  · exact h

/-- Claim C3: a freshly spawned car starts inside its lateral bounds, and
every car inside its bounds stays inside them under any sequence of
nonnegative delta-times of the per-tick move-and-wrap step. -/
theorem car_wrap_stays_in_bounds (dts : List ℚ) (cars : List Car)
    (hdts : ∀ d ∈ dts, 0 ≤ d) (hcars : ∀ c ∈ cars, carInBounds c) :
    (∀ c ∈ dts.foldl (fun cs d => moveCars d cs) cars, carInBounds c) ∧
    (∀ (rng : ℕ → ℚ) (row : Row) (cars0 : List Car) (k : ℕ),
      (∀ n, 0 ≤ rng n ∧ rng n < 1) → (∀ c ∈ cars0, carInBounds c) →
      ∀ c ∈ (spawnCarsOnRow rng row cars0 k).1, carInBounds c) := by
  refine ⟨?_, fun rng row cars0 k hr h0 => spawnCarsOnRow_inBounds rng row cars0 k hr h0⟩
  induction dts generalizing cars with
  | nil => simpa using hcars
  | cons d dts ih =>
      intro c hc
      rw [List.foldl_cons] at hc
      refine ih (moveCars d cars) ?_ ?_ c hc
      · intro d2 hd2
        exact hdts d2 (List.mem_cons_of_mem _ hd2)
      · intro c2 hc2
        exact moveCarsAux_inBounds d (hdts d (List.mem_cons_self _ _)) cars []
          (by simp) hcars c2 hc2

unseal Rat.add Rat.sub Rat.mul Rat.inv in
/-- Witness for C3: a car at z = 0 with speed 3 and a dt of 10 overshoots
maxZ = 15 and is wrapped back to minZ = -15, still inside the bounds. -/
theorem car_wrap_stays_in_bounds_witness :
    (∀ c ∈ ([10] : List ℚ).foldl (fun cs d => moveCars d cs)
        [{ x := 0, z := 0, speed := 3, direction := 1, minZ := -15, maxZ := 15,
           modelIndex := 0 }], carInBounds c) ∧
    (∀ (rng : ℕ → ℚ) (row : Row) (cars0 : List Car) (k : ℕ),
      (∀ n, 0 ≤ rng n ∧ rng n < 1) → (∀ c ∈ cars0, carInBounds c) →
      ∀ c ∈ (spawnCarsOnRow rng row cars0 k).1, carInBounds c) :=
  car_wrap_stays_in_bounds [10] _ (by decide) (by simp [carInBounds])

unseal Rat.add Rat.sub Rat.mul Rat.inv in
/-- Claim C7 failing input: from a game-over state a single pause toggle
followed by one tick advances the camera (and the rest of the tick pipeline)
while isGameOver is still true, whereas the same tick without the toggle
changes nothing.  GameOver is therefore not terminal under pause toggles. -/
theorem pause_toggle_resumes_after_game_over :
    (stepEvent rng0 3 (stepEvent rng0 3 overState GEvent.pauseToggle)
        (GEvent.tick 1)).cameraX ≠ overState.cameraX ∧
    (stepEvent rng0 3 (stepEvent rng0 3 overState GEvent.pauseToggle)
        (GEvent.tick 1)).isGameOver = true ∧
    stepEvent rng0 3 overState (GEvent.tick 1) = overState := by decide

/-- Claim C8 amended: within one running tick the actual order is score
update, autoscroll advance, left-behind transition, camera pull, traffic
movement, lethal car collision transition, then World Window extend and
evict; the whole tick is the deterministic function drawSceneTick of the
prior state, the random stream, the delta-time and the canvas worldHeight. -/
theorem tick_order_amended (rng : ℕ → ℚ) (wH dt : ℚ) (s : GameState) :
    drawSceneTick rng wH dt s =
      if s.isPaused then s
      else terrainPhase rng (carCollisionPhase (trafficPhase dt
        (pullPhase wH (leftBehindPhase (scrollPhase dt (scorePhase s)))))) :=
  tick_phases rng wH dt s

unseal Rat.add Rat.sub Rat.mul Rat.inv in
/-- Counterexample for C8 as stated: running the phases in the order the
spec lists them (window extend before traffic) produces a different state
than the source tick on a concrete input - the car spawned by the window
update this tick is moved and wrapped by the spec ordering but not by the
source ordering. -/
theorem tick_order_counterexample :
    specOrderTick rng0 3 1 runningState ≠ drawSceneTick rng0 3 1 runningState := by
  decide

/-- keyDown never touches the score text. -/
theorem keyDown_scoreText (s : GameState) (key : MoveKey) :
    (keyDown s key).scoreText = s.scoreText := by
  unfold keyDown
  split
  · rfl
  · cases key <;> dsimp only <;> split <;> rfl

/-- keyDown never touches the best-progress tracker. -/
theorem keyDown_maxDistanceX (s : GameState) (key : MoveKey) :
    (keyDown s key).maxDistanceX = s.maxDistanceX := by
  unfold keyDown
  split
  · rfl
  · cases key <;> dsimp only <;> split <;> rfl

/-- The score phase keeps the display consistent with the formula and never
decreases it. -/
theorem scorePhase_inv (s : GameState) (h : scoreInv s) :
    scoreInv (scorePhase s) ∧ s.scoreText ≤ (scorePhase s).scoreText := by
  unfold scorePhase
  split
  next hlt =>
    unfold scoreInv at h ⊢
    dsimp only
    refine ⟨rfl, ?_⟩
    rw [h]
    have e : stepSize = 1 := rfl
    rw [e, div_one, div_one]
    exact Int.floor_le_floor (by linarith)
  next => exact ⟨h, le_refl _⟩

/-- One tick keeps the score display consistent and never decreases it. -/
theorem drawSceneTick_score (rng : ℕ → ℚ) (wH dt : ℚ) (s : GameState)
    (h : scoreInv s) :
    scoreInv (drawSceneTick rng wH dt s) ∧
    s.scoreText ≤ (drawSceneTick rng wH dt s).scoreText := by
  rw [tick_phases]
  by_cases hp : s.isPaused = true
  · rw [if_pos hp]
    exact ⟨h, le_refl _⟩
  · rw [if_neg hp]
    have e1 : (terrainPhase rng (carCollisionPhase (trafficPhase dt
        (pullPhase wH (leftBehindPhase (scrollPhase dt (scorePhase s))))))).scoreText =
        (scorePhase s).scoreText := by
      rw [terrainPhase_scoreText, carCollisionPhase_scoreText, trafficPhase_scoreText,
        pullPhase_scoreText, leftBehindPhase_scoreText, scrollPhase_scoreText]
    have e2 : (terrainPhase rng (carCollisionPhase (trafficPhase dt
        (pullPhase wH (leftBehindPhase (scrollPhase dt (scorePhase s))))))).maxDistanceX =
        (scorePhase s).maxDistanceX := by
      rw [terrainPhase_maxDistanceX, carCollisionPhase_maxDistanceX, trafficPhase_maxDistanceX,
        pullPhase_maxDistanceX, leftBehindPhase_maxDistanceX, scrollPhase_maxDistanceX]
    obtain ⟨hi, hm⟩ := scorePhase_inv s h
    refine ⟨?_, ?_⟩
    · unfold scoreInv at hi ⊢
      rw [e1, e2]
      exact hi
    · rw [e1]
      exact hm

/-- Every session event other than restart keeps the score display
consistent and never decreases it. -/
theorem stepEvent_score (rng : ℕ → ℚ) (wH : ℚ) (s : GameState) (e : GEvent)
    (hne : e ≠ GEvent.restartClick) (h : scoreInv s) :
    scoreInv (stepEvent rng wH s e) ∧ s.scoreText ≤ (stepEvent rng wH s e).scoreText := by
  cases e with
  | tick dt => exact drawSceneTick_score rng wH dt s h
  | key k =>
      refine ⟨?_, ?_⟩
      · unfold scoreInv at h ⊢
        show (keyDown s k).scoreText =
          Int.floor (((keyDown s k).maxDistanceX - initialX) / stepSize)
        rw [keyDown_scoreText, keyDown_maxDistanceX]
        exact h
      · show s.scoreText ≤ (keyDown s k).scoreText
        rw [keyDown_scoreText]
  | pauseToggle => exact ⟨h, le_refl _⟩
  | restartClick => exact absurd rfl hne

/-- Claim C4: within one session (no restart among the events) the displayed
score is non-decreasing across any event sequence, and immediately after
Restart the score is exactly 0 and the best progress equals the initial
lane coordinate (which is also where Restart puts the player). -/
theorem score_monotone_and_restart_resets (rng : ℕ → ℚ) (wH : ℚ) (s : GameState)
    (events : List GEvent) (hinv : scoreInv s)
    (hnr : GEvent.restartClick ∉ events) :
    s.scoreText ≤ (events.foldl (stepEvent rng wH) s).scoreText ∧
    ((restartGame rng s).scoreText = 0 ∧
      (restartGame rng s).maxDistanceX = initialX ∧
      (restartGame rng s).playerX = initialX) := by
  have main : ∀ (es : List GEvent) (s2 : GameState), scoreInv s2 →
      GEvent.restartClick ∉ es →
      s2.scoreText ≤ (es.foldl (stepEvent rng wH) s2).scoreText := by
    intro es
    induction es with
    | nil => intro s2 _ _; exact le_refl _
    | cons e es2 ih =>
        intro s2 h2 hnr2
        rw [List.foldl_cons]
        have hne : e ≠ GEvent.restartClick := fun he => hnr2 (he ▸ List.mem_cons_self _ _)
        obtain ⟨hi2, hm⟩ := stepEvent_score rng wH s2 e hne h2
        exact hm.trans (ih _ hi2 (fun hc => hnr2 (List.mem_cons_of_mem _ hc)))
  exact ⟨main events s hinv hnr, rfl, rfl, rfl⟩

unseal Rat.add Rat.sub Rat.mul Rat.inv in
/-- Witness for C4: a concrete running state with a consistent score display
and a pause toggle event. -/
theorem score_monotone_and_restart_resets_witness :
    runningState.scoreText ≤
      (([GEvent.pauseToggle].foldl (stepEvent rng0 3) runningState)).scoreText ∧
    ((restartGame rng0 runningState).scoreText = 0 ∧
      (restartGame rng0 runningState).maxDistanceX = initialX ∧
      (restartGame rng0 runningState).playerX = initialX) :=
  score_monotone_and_restart_resets rng0 3 runningState [GEvent.pauseToggle]
    (by unfold scoreInv; decide) (by decide)

/-! Structure of the spawn functions: every entity spawned on a row carries
the x coordinate of that row, and rows are only appended. -/

theorem createRow_x (rng : ℕ → ℚ) (x : ℚ) (k : ℕ) : (createRow rng x k).1.x = x := by
  unfold createRow
  split
  · split <;> rfl
  · rfl

theorem treeSlot_foldl_x (rng : ℕ → ℚ) (rowX : ℚ) :
    ∀ (l : List ℤ) (acc : List Tree × ℕ), (∀ t ∈ acc.1, t.x = rowX) →
      ∀ t ∈ (l.foldl (treeSlotStep rng rowX) acc).1, t.x = rowX := by
  intro l
  induction l with
  | nil => intro acc h; simpa using h
  | cons z l ih =>
      intro acc h
      rw [List.foldl_cons]
      refine ih _ ?_
      unfold treeSlotStep
      split
      · exact h
      · split
        · intro t ht
          dsimp only at ht
          rcases List.mem_append.mp ht with h2 | h2
          · exact h t h2
          · rcases List.mem_singleton.mp h2 with rfl
            rfl
        · exact h

theorem spawnTreesOnRow_x (rng : ℕ → ℚ) (row : Row) (k : ℕ) :
    ∀ t ∈ (spawnTreesOnRow rng row k).1, t.x = row.x := by
  unfold spawnTreesOnRow
  split
  · exact treeSlot_foldl_x rng row.x zSlots ([], k) (by simp)
  · simp

theorem carTryStep_shape (rng : ℕ → ℚ) (row : Row) (acc : List Car × ℕ) :
    ∃ new, (carTryStep rng row acc).1 = acc.1 ++ new ∧ ∀ c ∈ new, c.x = row.x := by
  unfold carTryStep
  dsimp only
  split
  · exact ⟨[], by simp, by simp⟩
  · refine ⟨[_], rfl, ?_⟩
    intro c hc
    rcases List.mem_singleton.mp hc with rfl
    rfl

theorem carTry_foldl_shape (rng : ℕ → ℚ) (row : Row) :
    ∀ (l : List ℕ) (acc : List Car × ℕ),
      ∃ new, (l.foldl (fun a _ => carTryStep rng row a) acc).1 = acc.1 ++ new ∧
        ∀ c ∈ new, c.x = row.x := by
  intro l
  induction l with
  | nil => intro acc; exact ⟨[], by simp, by simp⟩
  | cons n l ih =>
      intro acc
      rw [List.foldl_cons]
      obtain ⟨n1, e1, h1⟩ := carTryStep_shape rng row acc
      obtain ⟨n2, e2, h2⟩ := ih (carTryStep rng row acc)
      refine ⟨n1 ++ n2, ?_, ?_⟩
      · rw [e2, e1, List.append_assoc]
      · intro c hc
        rcases List.mem_append.mp hc with h | h
        · exact h1 c h
        · exact h2 c h

theorem spawnCarsOnRow_shape (rng : ℕ → ℚ) (row : Row) (cars : List Car) (k : ℕ) :
    ∃ new, (spawnCarsOnRow rng row cars k).1 = cars ++ new ∧ ∀ c ∈ new, c.x = row.x := by
  unfold spawnCarsOnRow
  split
  · exact carTry_foldl_shape rng row _ (cars, k+1)
  · exact ⟨[], by simp, by simp⟩

theorem spawnRow_shape (rng : ℕ → ℚ) (x : ℚ) (tsk : TerrainState × ℕ) :
    ∃ (row : Row) (newT : List Tree) (newC : List Car),
      row.x = x ∧
      (spawnRow rng x tsk).1.rows = tsk.1.rows ++ [row] ∧
      (spawnRow rng x tsk).1.trees = tsk.1.trees ++ newT ∧ (∀ t ∈ newT, t.x = x) ∧
      (spawnRow rng x tsk).1.cars = tsk.1.cars ++ newC ∧ (∀ c ∈ newC, c.x = x) := by
  obtain ⟨newC, hC, hCx⟩ := spawnCarsOnRow_shape rng (createRow rng x tsk.2).1 tsk.1.cars
    (spawnTreesOnRow rng (createRow rng x tsk.2).1 (createRow rng x tsk.2).2).2
  refine ⟨(createRow rng x tsk.2).1,
    (spawnTreesOnRow rng (createRow rng x tsk.2).1 (createRow rng x tsk.2).2).1, newC,
    createRow_x rng x tsk.2, rfl, rfl, ?_, hC, ?_⟩
  · intro t ht
    rw [spawnTreesOnRow_x rng _ _ t ht, createRow_x]
  · intro c hc
    rw [hCx c hc, createRow_x]

theorem lastRowX_eq_of_rows (ts : TerrainState) (rows : List Row) (row : Row)
    (h : ts.rows = rows ++ [row]) : lastRowX ts = row.x := by
  unfold lastRowX
  rw [h, List.getLast?_concat]
  rfl

/-- In a strictly sorted row list every row is at or behind the newest. -/
theorem pairwise_le_last :
    ∀ (l : List Row), l.Pairwise (fun a b => a.x < b.x) →
      ∀ r ∈ l, r.x ≤ (l.getLast?).elim 0 Row.x := by
  intro l
  induction l with
  | nil => simp
  | cons a t ih =>
      intro hp r hr
      cases t with
      | nil =>
          rcases List.mem_singleton.mp hr with rfl
          simp
      | cons b t2 =>
          rw [List.getLast?_cons_cons]
          rcases List.mem_cons.mp hr with rfl | hr2
          · have hne : (b :: t2) ≠ [] := by simp
            rw [List.getLast?_eq_getLast_of_ne_nil hne]
            have hmem := List.getLast_mem hne
            exact le_of_lt ((List.pairwise_cons.mp hp).1 _ hmem)
          · exact ih (List.pairwise_cons.mp hp).2 r hr2

/-- Evicting from the front of a list whose final element survives keeps
the list nonempty with the same final element. -/
theorem dropWhile_getLast?_keep (q : Row → Bool) :
    ∀ (l : List Row) (r : Row), l.getLast? = some r → q r = false →
      (l.dropWhile q) ≠ [] ∧ (l.dropWhile q).getLast? = some r := by
  intro l
  induction l with
  | nil => intro r h _; simp at h
  | cons a t ih =>
      intro r hlast hq
      cases t with
      | nil =>
          have ha : a = r := by simpa using hlast
          subst ha
          rw [List.dropWhile_cons_of_neg (by simp [hq])]
          exact ⟨by simp, rfl⟩
      | cons b t2 =>
          rw [List.getLast?_cons_cons] at hlast
          by_cases hqa : q a = true
          · rw [List.dropWhile_cons_of_pos hqa]
            exact ih r hlast hq
          · rw [List.dropWhile_cons_of_neg hqa]
            refine ⟨by simp, ?_⟩
            rw [List.getLast?_cons_cons]
            exact hlast

/-- The append loop preserves strict sortedness of the rows. -/
theorem addRows_pairwise (rng : ℕ → ℚ) (thr : ℚ) :
    ∀ (fuel : ℕ) (lastX : ℚ) (tsk : TerrainState × ℕ),
      tsk.1.rows.Pairwise (fun a b => a.x < b.x) →
      (∀ r ∈ tsk.1.rows, r.x ≤ lastX) →
      (addRows rng thr fuel lastX tsk).1.rows.Pairwise (fun a b => a.x < b.x) := by
  intro fuel
  induction fuel with
  | zero => intro lastX tsk h _; simpa [addRows] using h
  | succ n ih =>
      intro lastX tsk h hle
      simp only [addRows]
      split
      · obtain ⟨row, newT, newC, hrowx, hrows, -, -, -, -⟩ :=
          spawnRow_shape rng (lastX + ROW_DEPTH) tsk
        apply ih
        · rw [hrows, List.pairwise_append]
          refine ⟨h, List.pairwise_singleton _ _, ?_⟩
          intro a ha b hb
          rcases List.mem_singleton.mp hb with rfl
          rw [hrowx]
          have hRD : (0:ℚ) < ROW_DEPTH := by norm_num [ROW_DEPTH]
          linarith [hle a ha]
        · intro r hr
          rw [hrows] at hr
          rcases List.mem_append.mp hr with h2 | h2
          · have hRD : (0:ℚ) < ROW_DEPTH := by norm_num [ROW_DEPTH]
            linarith [hle r h2]
          · rcases List.mem_singleton.mp h2 with rfl
            exact le_of_eq hrowx
      · exact h

/-- Main structure lemma for the append loop: rows stay nonempty, the newest
row only moves forward and ends under thr + ROW_DEPTH unless nothing was
appended, every tree and car stays at or behind the newest row, and every
new tree or car sits strictly ahead of the entry lastX. -/
theorem addRows_spec (rng : ℕ → ℚ) (thr : ℚ) :
    ∀ (fuel : ℕ) (lastX : ℚ) (tsk : TerrainState × ℕ),
      tsk.1.rows ≠ [] →
      tsk.1.rows.Pairwise (fun a b => a.x < b.x) →
      (∀ r ∈ tsk.1.rows, r.x ≤ lastX) →
      (∀ t ∈ tsk.1.trees, t.x ≤ lastRowX tsk.1) →
      (∀ c ∈ tsk.1.cars, c.x ≤ lastRowX tsk.1) →
      lastRowX tsk.1 ≤ lastX →
      (addRows rng thr fuel lastX tsk).1.rows ≠ [] ∧
      lastRowX tsk.1 ≤ lastRowX (addRows rng thr fuel lastX tsk).1 ∧
      ((addRows rng thr fuel lastX tsk).1 = tsk.1 ∨
        lastRowX (addRows rng thr fuel lastX tsk).1 < thr + ROW_DEPTH) ∧
      (∀ t ∈ (addRows rng thr fuel lastX tsk).1.trees,
        t.x ≤ lastRowX (addRows rng thr fuel lastX tsk).1) ∧
      (∀ c ∈ (addRows rng thr fuel lastX tsk).1.cars,
        c.x ≤ lastRowX (addRows rng thr fuel lastX tsk).1) ∧
      (∀ t ∈ (addRows rng thr fuel lastX tsk).1.trees, t ∈ tsk.1.trees ∨ lastX < t.x) ∧
      (∀ c ∈ (addRows rng thr fuel lastX tsk).1.cars, c ∈ tsk.1.cars ∨ lastX < c.x) := by
  intro fuel
  induction fuel with
  | zero =>
      intro lastX tsk hne hp hle htr hcr hlx
      simp only [addRows]
      exact ⟨hne, le_refl _, Or.inl (by trivial), htr, hcr,
        fun t ht => Or.inl ht, fun c hc => Or.inl hc⟩
  | succ n ih =>
      intro lastX tsk hne hp hle htr hcr hlx
      simp only [addRows]
      split
      next hlt =>
        obtain ⟨row, newT, newC, hrowx, hrows, htrees, htx, hcars, hcx⟩ :=
          spawnRow_shape rng (lastX + ROW_DEPTH) tsk
        have hRD : (0:ℚ) < ROW_DEPTH := by norm_num [ROW_DEPTH]
        have hlast2 : lastRowX (spawnRow rng (lastX + ROW_DEPTH) tsk).1 = lastX + ROW_DEPTH := by
          rw [lastRowX_eq_of_rows _ tsk.1.rows row hrows, hrowx]
        have h1 : (spawnRow rng (lastX + ROW_DEPTH) tsk).1.rows ≠ [] := by
          rw [hrows]; simp
        have h2 : (spawnRow rng (lastX + ROW_DEPTH) tsk).1.rows.Pairwise
            (fun a b => a.x < b.x) := by
          rw [hrows, List.pairwise_append]
          refine ⟨hp, List.pairwise_singleton _ _, ?_⟩
          intro a ha b hb
          rcases List.mem_singleton.mp hb with rfl
          rw [hrowx]
          linarith [hle a ha]
        have h3 : ∀ r ∈ (spawnRow rng (lastX + ROW_DEPTH) tsk).1.rows,
            r.x ≤ lastX + ROW_DEPTH := by
          intro r hr
          rw [hrows] at hr
          rcases List.mem_append.mp hr with hh | hh
          · linarith [hle r hh]
          · rcases List.mem_singleton.mp hh with rfl
            exact le_of_eq hrowx
        have h4 : ∀ t ∈ (spawnRow rng (lastX + ROW_DEPTH) tsk).1.trees,
            t.x ≤ lastRowX (spawnRow rng (lastX + ROW_DEPTH) tsk).1 := by
          intro t ht
          rw [htrees] at ht
          rw [hlast2]
          rcases List.mem_append.mp ht with hh | hh
          · linarith [htr t hh, hlx]
          · rw [htx t hh]
        have h5 : ∀ c ∈ (spawnRow rng (lastX + ROW_DEPTH) tsk).1.cars,
            c.x ≤ lastRowX (spawnRow rng (lastX + ROW_DEPTH) tsk).1 := by
          intro c hc
          rw [hcars] at hc
          rw [hlast2]
          rcases List.mem_append.mp hc with hh | hh
          · linarith [hcr c hh, hlx]
          · rw [hcx c hh]
        have h6 : lastRowX (spawnRow rng (lastX + ROW_DEPTH) tsk).1 ≤ lastX + ROW_DEPTH :=
          le_of_eq hlast2
        obtain ⟨g1, g2, g3, g4, g5, g6, g7⟩ :=
          ih (lastX + ROW_DEPTH) (spawnRow rng (lastX + ROW_DEPTH) tsk) h1 h2 h3 h4 h5 h6
        refine ⟨g1, ?_, ?_, g4, g5, ?_, ?_⟩
        · calc lastRowX tsk.1 ≤ lastX := hlx
            _ ≤ lastX + ROW_DEPTH := by linarith
            _ = lastRowX (spawnRow rng (lastX + ROW_DEPTH) tsk).1 := hlast2.symm
            _ ≤ _ := g2
        · right
          rcases g3 with he | hlt2
          · rw [he, hlast2]
            linarith
          · exact hlt2
        · intro t ht
          rcases g6 t ht with hh | hh
          · rw [htrees] at hh
            rcases List.mem_append.mp hh with hh2 | hh2
            · exact Or.inl hh2
            · right
              rw [htx t hh2]
              linarith
          · right
            linarith
        · intro c hc
          rcases g7 c hc with hh | hh
          · rw [hcars] at hh
            rcases List.mem_append.mp hh with hh2 | hh2
            · exact Or.inl hh2
            · right
              rw [hcx c hh2]
              linarith
          · right
            linarith
      next =>
        exact ⟨hne, le_refl _, Or.inl (by trivial), htr, hcr,
          fun t ht => Or.inl ht, fun c hc => Or.inl hc⟩

/-- updateTerrain preserves strict sortedness of the rows. -/
theorem updateTerrain_pairwise (rng : ℕ → ℚ) (c : ℚ) (tsk : TerrainState × ℕ)
    (h : tsk.1.rows.Pairwise (fun a b => a.x < b.x)) :
    (updateTerrain rng c tsk).1.rows.Pairwise (fun a b => a.x < b.x) := by
  unfold updateTerrain
  dsimp only
  apply addRows_pairwise
  · exact List.Pairwise.sublist (List.dropWhile_sublist _) h
  · exact pairwise_le_last _ (List.Pairwise.sublist (List.dropWhile_sublist _) h)

/-- Folding spawnRow over a strictly increasing list of coordinates that all
lie ahead of the existing rows keeps the rows strictly sorted. -/
theorem spawnRow_foldl_pairwise (rng : ℕ → ℚ) :
    ∀ (xs : List ℚ) (tsk : TerrainState × ℕ),
      tsk.1.rows.Pairwise (fun a b => a.x < b.x) →
      (∀ r ∈ tsk.1.rows, ∀ x ∈ xs, r.x < x) →
      xs.Pairwise (· < ·) →
      (xs.foldl (fun t x => spawnRow rng x t) tsk).1.rows.Pairwise
        (fun a b => a.x < b.x) := by
  intro xs
  induction xs with
  | nil => intro tsk h _ _; simpa using h
  | cons x xs ih =>
      intro tsk h hlt hxs
      rw [List.foldl_cons]
      obtain ⟨row, newT, newC, hrowx, hrows, -, -, -, -⟩ := spawnRow_shape rng x tsk
      apply ih
      · rw [hrows, List.pairwise_append]
        refine ⟨h, List.pairwise_singleton _ _, ?_⟩
        intro a ha b hb
        rcases List.mem_singleton.mp hb with rfl
        rw [hrowx]
        exact hlt a ha x (List.mem_cons_self _ _)
      · intro r hr y hy
        rw [hrows] at hr
        rcases List.mem_append.mp hr with h2 | h2
        · exact hlt r h2 y (List.mem_cons_of_mem _ hy)
        · rcases List.mem_singleton.mp h2 with rfl
          rw [hrowx]
          exact (List.pairwise_cons.mp hxs).1 y hy
      · exact (List.pairwise_cons.mp hxs).2

/-- The initial terrain rows are strictly sorted. -/
theorem initTerrain_rows_pairwise (rng : ℕ → ℚ) (startX : ℚ) (k : ℕ) :
    (initTerrain rng startX k).1.rows.Pairwise (fun a b => a.x < b.x) := by
  unfold initTerrain
  rw [show ((List.range 50).foldl
      (fun tsk i => spawnRow rng (startX + (((i : ℤ) - 10 : ℤ) : ℚ)) tsk)
      (⟨⟨[], [], []⟩, k⟩ : TerrainState × ℕ)) =
      (((List.range 50).map (fun i => startX + (((i : ℤ) - 10 : ℤ) : ℚ))).foldl
        (fun t x => spawnRow rng x t) ⟨⟨[], [], []⟩, k⟩) from
    (List.foldl_map (fun i : ℕ => startX + (((i : ℤ) - 10 : ℤ) : ℚ))
      (fun t x => spawnRow rng x t) (List.range 50)
      (⟨⟨[], [], []⟩, k⟩ : TerrainState × ℕ)).symm]
  apply spawnRow_foldl_pairwise
  · simp
  · simp
  · refine List.Pairwise.map (fun i : ℕ => startX + (((i : ℤ) - 10 : ℤ) : ℚ)) ?_
      (List.pairwise_lt_range 50)
    intro i j hij
    have h2 : ((i:ℤ):ℚ) < ((j:ℤ):ℚ) := by exact_mod_cast hij
    push_cast
    push_cast at h2
    linarith

/-- Claim C6: after initTerrain and any sequence of updateTerrain calls with
non-decreasing camera positions, the lane list is strictly sorted by x, so
no two lanes share a coordinate.  The proof never needs the monotonicity of
the camera: sortedness is preserved by every updateTerrain call.  The reset
done by Restart rebuilds the window with initTerrain on cleared arrays,
which is this statement again. -/
theorem rows_strictly_sorted (rng : ℕ → ℚ) (startX : ℚ) (k : ℕ) (cams : List ℚ)
    (hmono : cams.Chain' (· ≤ ·)) :
    ((cams.foldl (fun tsk c => updateTerrain rng c tsk)
        (initTerrain rng startX k)).1.rows).Pairwise (fun a b => a.x < b.x) := by
  have main : ∀ (cs : List ℚ) (tsk : TerrainState × ℕ),
      tsk.1.rows.Pairwise (fun a b => a.x < b.x) →
      ((cs.foldl (fun tsk c => updateTerrain rng c tsk) tsk).1.rows).Pairwise
        (fun a b => a.x < b.x) := by
    intro cs
    induction cs with
    | nil => intro tsk h; simpa using h
    | cons c cs ih =>
        intro tsk h
        rw [List.foldl_cons]
        exact ih _ (updateTerrain_pairwise rng c tsk h)
  exact main cams _ (initTerrain_rows_pairwise rng startX k)

/-- Witness for C6: the empty camera sequence on the standard start. -/
theorem rows_strictly_sorted_witness :
    ((([] : List ℚ).foldl (fun tsk c => updateTerrain rng0 c tsk)
        (initTerrain rng0 (-12) 0)).1.rows).Pairwise (fun a b => a.x < b.x) :=
  rows_strictly_sorted rng0 (-12) 0 [] (by simp)

/-- Claim C5 amended: after a World Window update at camera c, from a
well-formed window whose previous camera was c0 <= c and whose newest row is
not behind c - 15 (true whenever the camera advances at most 55 per tick),
every live tree and car lies in the half-open band
[c - 15, c + DRAW_DISTANCE + ROW_DEPTH), and the window is well formed
again.  The upper margin is one ROW_DEPTH wider than the claim states
because updateTerrain advances lastX before creating the row. -/
theorem window_band_amended (rng : ℕ → ℚ) (c0 c : ℚ) (tsk : TerrainState × ℕ)
    (hwf : WF tsk.1 c0) (hmono : c0 ≤ c) (hstale : c - 15 ≤ lastRowX tsk.1) :
    (∀ t ∈ (updateTerrain rng c tsk).1.trees,
        c - 15 ≤ t.x ∧ t.x < c + DRAW_DISTANCE + ROW_DEPTH) ∧
    (∀ cr ∈ (updateTerrain rng c tsk).1.cars,
        c - 15 ≤ cr.x ∧ cr.x < c + DRAW_DISTANCE + ROW_DEPTH) ∧
    WF (updateTerrain rng c tsk).1 c := by
  obtain ⟨hne, hpw, hlast, htr, hcr⟩ := hwf
  obtain ⟨r0, hr0⟩ := Option.isSome_iff_exists.mp
    (by rw [List.getLast?_isSome]; exact hne)
  have hr0x : r0.x = lastRowX tsk.1 := by
    unfold lastRowX
    rw [hr0]
    rfl
  have hq : (fun r => decide (r.x < c - 15)) r0 = false := by
    simp only [decide_eq_false_iff_not, not_lt]
    rw [hr0x]
    exact hstale
  obtain ⟨hne1, hlast1⟩ := dropWhile_getLast?_keep (fun r => decide (r.x < c - 15))
    tsk.1.rows r0 hr0 hq
  set ts1 : TerrainState :=
    { rows := tsk.1.rows.dropWhile (fun r => decide (r.x < c - 15)),
      trees := tsk.1.trees.filter (fun t => decide (c - 15 ≤ t.x)),
      cars := tsk.1.cars.filter (fun cr => decide (c - 15 ≤ cr.x)) } with hts1
  have hUT : updateTerrain rng c tsk =
      addRows rng (c + DRAW_DISTANCE)
        (Int.ceil ((c + DRAW_DISTANCE) - lastRowX ts1)).toNat
        (lastRowX ts1) (ts1, tsk.2) := rfl
  have hL1 : lastRowX ts1 = lastRowX tsk.1 := by
    unfold lastRowX
    rw [hts1]
    dsimp only
    rw [hlast1, hr0]
  have hpw1 : ts1.rows.Pairwise (fun a b => a.x < b.x) := by
    rw [hts1]
    exact List.Pairwise.sublist (List.dropWhile_sublist _) hpw
  have hle1 : ∀ r ∈ ts1.rows, r.x ≤ lastRowX ts1 :=
    pairwise_le_last ts1.rows hpw1
  have htr1 : ∀ t ∈ ts1.trees, t.x ≤ lastRowX ts1 := by
    intro t ht
    rw [hts1] at ht
    rw [hL1]
    exact htr t (List.mem_of_mem_filter ht)
  have hcr1 : ∀ cr ∈ ts1.cars, cr.x ≤ lastRowX ts1 := by
    intro cr hc
    rw [hts1] at hc
    rw [hL1]
    exact hcr cr (List.mem_of_mem_filter hc)
  obtain ⟨g1, g2, g3, g4, g5, g6, g7⟩ :=
    addRows_spec rng (c + DRAW_DISTANCE)
      (Int.ceil ((c + DRAW_DISTANCE) - lastRowX ts1)).toNat
      (lastRowX ts1) (ts1, tsk.2) hne1 hpw1 hle1 htr1 hcr1 (le_refl _)
  have hlow : c - 15 ≤ lastRowX ts1 := by
    rw [hL1]
    exact hstale
  have hup : lastRowX (updateTerrain rng c tsk).1 < c + DRAW_DISTANCE + ROW_DEPTH := by
    rw [hUT]
    rcases g3 with he | hlt2
    · rw [he, hL1]
      linarith
    · linarith
  refine ⟨?_, ?_, ?_⟩
  · intro t ht
    rw [hUT] at ht
    constructor
    · rcases g6 t ht with hmem | hgt
      · rw [hts1] at hmem
        have := (List.mem_filter.mp hmem).2
        rw [decide_eq_true_iff] at this
        exact this
      · linarith
    · have hb := g4 t ht
      rw [← hUT] at hb
      linarith [hup]
  · intro cr hc
    rw [hUT] at hc
    constructor
    · rcases g7 cr hc with hmem | hgt
      · rw [hts1] at hmem
        have := (List.mem_filter.mp hmem).2
        rw [decide_eq_true_iff] at this
        exact this
      · linarith
    · have hb := g5 cr hc
      rw [← hUT] at hb
      linarith [hup]
  · refine ⟨?_, ?_, hup, ?_, ?_⟩
    · rw [hUT]
      exact g1
    · rw [hUT]
      exact addRows_pairwise rng (c + DRAW_DISTANCE) _ (lastRowX ts1) (ts1, tsk.2)
        hpw1 hle1
    · intro t ht
      rw [hUT] at ht ⊢
      exact g4 t ht
    · intro cr hc
      rw [hUT] at hc ⊢
      exact g5 cr hc

unseal Rat.add Rat.sub Rat.mul Rat.inv in
/-- Witness for C5 amended: a well-formed single-row window at camera 0. -/
theorem window_band_amended_witness :
    (∀ t ∈ (updateTerrain rng0 0 (⟨{ rows := [farRow], trees := [], cars := [] }, 0⟩ :
        TerrainState × ℕ)).1.trees, (0:ℚ) - 15 ≤ t.x ∧ t.x < 0 + DRAW_DISTANCE + ROW_DEPTH) ∧
    (∀ cr ∈ (updateTerrain rng0 0 (⟨{ rows := [farRow], trees := [], cars := [] }, 0⟩ :
        TerrainState × ℕ)).1.cars, (0:ℚ) - 15 ≤ cr.x ∧ cr.x < 0 + DRAW_DISTANCE + ROW_DEPTH) ∧
    WF (updateTerrain rng0 0 (⟨{ rows := [farRow], trees := [], cars := [] }, 0⟩ :
        TerrainState × ℕ)).1 0 :=
  window_band_amended rng0 0 0 ⟨{ rows := [farRow], trees := [], cars := [] }, 0⟩
    ⟨by simp, List.pairwise_singleton _ _, by decide, by simp, by simp⟩
    (le_refl 0) (by decide)

set_option maxRecDepth 100000 in
unseal Rat.add Rat.sub Rat.mul Rat.inv in
/-- Counterexample for C5 as stated: start a session (initTerrain at -12, as
main() and restartGame() do), let the first tick scroll the camera to -11.9
(dt = 0.5 s at scrollSpeed 0.2), and run the World Window update.  With the
all-zeros random stream the update appends road rows at 28 and 29 and a car
on each, and the car at x = 29 lies outside the claimed closed band
[cameraX - 15, cameraX + DRAW_DISTANCE] = [-26.9, 28.1]. -/
theorem window_band_counterexample :
    ¬ (∀ car ∈ (updateTerrain rng0 (-119/10)
          (initTerrain rng0 (-12) 0)).1.cars,
        -119/10 - 15 ≤ car.x ∧ car.x ≤ -119/10 + DRAW_DISTANCE) := by
  decide

end CrossyGame
